import Mathlib

/-!
Verification of the mochi-live expressive-animation engine.

The definitions below are shallow embeddings of the TypeScript sources:
  - the formant signal classifier and the viseme smoother
    (utils/loadMixamoAnimation.ts, frequency/smoother module),
  - the fallback frequency classifier (utils/frequencyToViseme.ts),
  - the blink state machine (utils/blinkController.ts),
  - the animation blend controller and the per-frame expression update
    (the VRM scene component),
  - the Mixamo-to-VRM skeletal retargeter (utils/loadMixamoAnimation.ts).

Machine floating-point numbers are modelled by exact rationals; the
JavaScript values NaN and undefined, which matter for the retargeter, are
modelled explicitly by a dedicated type.  Timestamps (milliseconds from
Date.now) are integers.
-/

namespace MochiLive

/-! ## Signal classifier (formant version, loadMixamoAnimation.ts) -/

inductive Viseme where
  | aa | ee | ih | oh | ou | neutral
deriving DecidableEq, Repr

structure FormantRange where
  f1min : ℚ
  f1max : ℚ
  f2min : ℚ
  f2max : ℚ
deriving DecidableEq, Repr

/-- The FORMANT_RANGES table of the source. -/
def formantRanges : Viseme → Option FormantRange
  | .aa => some ⟨650, 900, 1100, 1400⟩
  | .ee => some ⟨500, 700, 1700, 2200⟩
  | .ih => some ⟨200, 400, 1900, 2500⟩
  | .oh => some ⟨400, 600, 800, 1300⟩
  | .ou => some ⟨300, 450, 700, 1100⟩
  | .neutral => none

def sampleRate : ℚ := 44100

/-- Width in Hz of one frequency bin: (sampleRate / 2) / binCount. -/
def binWidth (binCount : ℕ) : ℚ := (sampleRate / 2) / binCount

/-- Source getAmplitudeInBand: startBin = floor(startHz / binWidth) and
    endBin = ceil(endHz / binWidth); the loop visits the indices i with
    startBin <= i <= endBin and i < binCount, accumulating a running sum
    and count, and returns sum / count when count > 0, otherwise 0. -/
def getAmplitudeInBand (data : List ℕ) (startHz endHz : ℚ) : ℚ :=
  let binCount := data.length
  let bw := binWidth binCount
  let startBin : ℤ := ⌊startHz / bw⌋
  let endBin : ℤ := ⌈endHz / bw⌉
  let acc := (List.range binCount).foldl
    (fun (acc : ℚ × ℕ) (i : ℕ) =>
      if startBin ≤ (i : ℤ) ∧ (i : ℤ) ≤ endBin then
        (acc.1 + ((data.getD i 0 : ℕ) : ℚ), acc.2 + 1)
      else acc)
    ((0 : ℚ), (0 : ℕ))
  if 0 < acc.2 then acc.1 / (acc.2 : ℚ) else 0

/-- The selection loop of the source: maxScore starts at 0 and the detected
    viseme at neutral; a viseme replaces them only when its score is strictly
    greater than the running maximum. -/
def selectMax (score : Viseme → ℚ) (order : List Viseme) : ℚ × Viseme :=
  order.foldl (fun acc v => if acc.1 < score v then (score v, v) else acc)
    ((0 : ℚ), Viseme.neutral)

def visemeOrder : List Viseme := [.aa, .ee, .ih, .oh, .ou]

/-- Per-viseme combined score: amplitude in the F1 band plus amplitude in
    the F2 band, as computed by the source. -/
def formantScore (data : List ℕ) (v : Viseme) : ℚ :=
  match formantRanges v with
  | none => 0
  | some r =>
      getAmplitudeInBand data r.f1min r.f1max + getAmplitudeInBand data r.f2min r.f2max

/-- frequencyToViseme of loadMixamoAnimation.ts (formant classifier): the
    input is the optional frequency frame (None models an absent buffer). -/
def frequencyToVisemeFormant (frequencyData : Option (List ℕ)) : Viseme × ℚ :=
  match frequencyData with
  | none => (.neutral, 0)
  | some data =>
      if data.length = 0 then (.neutral, 0)
      else
        let avgAmplitude := ((data.map (fun (x : ℕ) => (x : ℚ))).sum) / data.length
        if avgAmplitude < 10 then (.neutral, 0)
        else
          let pick := selectMax (formantScore data) visemeOrder
          let detectedViseme := if pick.1 < 20 then Viseme.neutral else pick.2
          (detectedViseme, min 1 (pick.1 / 150))

/-! ## Claim C1: the classifier as the claim words it (round-based bins) -/

/-- JavaScript Math.round for nonnegative arguments: floor(x + 1/2). -/
def jround (x : ℚ) : ℤ := ⌊x + 1 / 2⌋

/-- Claim C1 wording: the frequency band [minHz, maxHz) becomes the
    half-open range of bin indices [round(minHz / binWidth),
    round(maxHz / binWidth)). -/
def roundBandBins (binCount : ℕ) (startHz endHz : ℚ) : List ℕ :=
  (List.range binCount).filter
    (fun (i : ℕ) => decide (jround (startHz / binWidth binCount) ≤ (i : ℤ) ∧
              (i : ℤ) < jround (endHz / binWidth binCount)))

/-- Mean magnitude over a round-converted band (0 for an empty band). -/
def roundBandMean (data : List ℕ) (startHz endHz : ℚ) : ℚ :=
  let bins := roundBandBins data.length startHz endHz
  if bins.length = 0 then 0
  else ((bins.map (fun i => ((data.getD i 0 : ℕ) : ℚ))).sum) / bins.length

def specScore (data : List ℕ) (v : Viseme) : ℚ :=
  match formantRanges v with
  | none => 0
  | some r => roundBandMean data r.f1min r.f1max + roundBandMean data r.f2min r.f2max

/-- The classifier exactly as claim C1 states it: silence handling and the
    final selection as in the source, but band means taken over bins
    converted with round and a half-open band.  Tie-breaking follows the
    same first-strictly-greater scan as the source (the claim does not fix
    a tie-break). -/
def classifySpec (frequencyData : Option (List ℕ)) : Viseme × ℚ :=
  match frequencyData with
  | none => (.neutral, 0)
  | some data =>
      if data.length = 0 then (.neutral, 0)
      else
        let avgAmplitude := ((data.map (fun (x : ℕ) => (x : ℚ))).sum) / data.length
        if avgAmplitude < 10 then (.neutral, 0)
        else
          let pick := selectMax (specScore data) visemeOrder
          let detectedViseme := if pick.1 < 20 then Viseme.neutral else pick.2
          (detectedViseme, min 1 (pick.1 / 150))

/-- The bin range the source actually uses for a band: indices from
    floor(minHz / binWidth) to ceil(maxHz / binWidth) inclusive, capped at
    the bin count. -/
def bandBins (binCount : ℕ) (startHz endHz : ℚ) : List ℕ :=
  (List.range binCount).filter
    (fun (i : ℕ) => decide (⌊startHz / binWidth binCount⌋ ≤ (i : ℤ) ∧
              (i : ℤ) ≤ ⌈endHz / binWidth binCount⌉))

/-- Mean magnitude over the floor/ceil inclusive band (0 for an empty band). -/
def bandMean (data : List ℕ) (startHz endHz : ℚ) : ℚ :=
  let bins := bandBins data.length startHz endHz
  if bins.length = 0 then 0
  else ((bins.map (fun i => ((data.getD i 0 : ℕ) : ℚ))).sum) / bins.length

def amendedScore (data : List ℕ) (v : Viseme) : ℚ :=
  match formantRanges v with
  | none => 0
  | some r => bandMean data r.f1min r.f1max + bandMean data r.f2min r.f2max

/-- Claim C1 with the one amendment the counterexample forces: the band is
    converted to the inclusive bin range floor(minHz / binWidth) ..
    ceil(maxHz / binWidth), capped at binCount. -/
def classifyAmended (frequencyData : Option (List ℕ)) : Viseme × ℚ :=
  match frequencyData with
  | none => (.neutral, 0)
  | some data =>
      if data.length = 0 then (.neutral, 0)
      else
        let avgAmplitude := ((data.map (fun (x : ℕ) => (x : ℚ))).sum) / data.length
        if avgAmplitude < 10 then (.neutral, 0)
        else
          let pick := selectMax (amendedScore data) visemeOrder
          let detectedViseme := if pick.1 < 20 then Viseme.neutral else pick.2
          (detectedViseme, min 1 (pick.1 / 150))

/-- A 32-bin frame with all magnitude in the two lowest bins. -/
def frameC1 : List ℕ := (List.range 32).map (fun i => if i < 2 then 255 else 0)

/-! ### Helper: the accumulating loop computes a filtered sum and count -/

theorem foldl_sum_count {α : Type} (l : List α) (p : α → Prop) [DecidablePred p]
    (f : α → ℚ) (s : ℚ) (n : ℕ) :
    l.foldl (fun (acc : ℚ × ℕ) i => if p i then (acc.1 + f i, acc.2 + 1) else acc) (s, n)
      = (s + ((l.filter (fun i => decide (p i))).map f).sum,
         n + (l.filter (fun i => decide (p i))).length) := by
  induction l generalizing s n with
  | nil => simp
  | cons a t ih =>
      by_cases h : p a
      · rw [List.foldl_cons, if_pos h, ih]
        simp only [List.filter_cons, decide_eq_true h, if_true, List.map_cons,
          List.sum_cons, List.length_cons, Prod.mk.injEq]
        exact ⟨by ring, by omega⟩
      · rw [List.foldl_cons, if_neg h, ih]
        simp only [List.filter_cons, decide_eq_false h, Bool.false_eq_true, if_false]

theorem getAmplitudeInBand_eq_bandMean (data : List ℕ) (s e : ℚ) :
    getAmplitudeInBand data s e = bandMean data s e := by
  unfold getAmplitudeInBand bandMean bandBins
  have h := foldl_sum_count (List.range data.length)
    (fun i => ⌊s / binWidth data.length⌋ ≤ (i : ℤ) ∧
      (i : ℤ) ≤ ⌈e / binWidth data.length⌉)
    (fun i => ((data.getD i 0 : ℕ) : ℚ)) 0 0
  simp only [zero_add] at h
  dsimp only
  rw [h]
  by_cases h0 : ((List.range data.length).filter
      (fun (i : ℕ) => decide (⌊s / binWidth data.length⌋ ≤ (i : ℤ) ∧
        (i : ℤ) ≤ ⌈e / binWidth data.length⌉))).length = 0
  · rw [if_neg (by omega), if_pos h0]
  · rw [if_pos (by omega), if_neg h0]

theorem formantScore_eq_amendedScore (data : List ℕ) (v : Viseme) :
    formantScore data v = amendedScore data v := by
  unfold formantScore amendedScore
  cases formantRanges v with
  | none => rfl
  | some r =>
      dsimp only
      rw [getAmplitudeInBand_eq_bandMean, getAmplitudeInBand_eq_bandMean]

set_option maxRecDepth 100000 in
/-- Claim C1 counterexample: on a 32-bin frame whose magnitude sits in the
    two lowest bins, the source classifier answers oh while the classifier
    described by the claim (round-based half-open bands) answers ou. -/
theorem classifier_round_binning_counterexample :
    frequencyToVisemeFormant (some frameC1) = (Viseme.oh, 1) ∧
    classifySpec (some frameC1) = (Viseme.ou, 1) ∧
    frequencyToVisemeFormant (some frameC1) ≠ classifySpec (some frameC1) := by
  refine ⟨by with_unfolding_all rfl, by with_unfolding_all rfl,
    of_decide_eq_true (by with_unfolding_all rfl)⟩

/-- Claim C1 (amended): the source classifier behaves exactly as the claim
    states once the bin conversion is read as the inclusive range
    floor(minHz / binWidth) .. ceil(maxHz / binWidth): absent or empty
    frames and frames whose mean magnitude is below 10 give (neutral, 0);
    otherwise each viseme scores the sum of its two band means, the maximal
    score wins, neutral is substituted below score 20, and the intensity is
    min(1, maxScore / 150). -/
theorem classifier_matches_amended_claim (frequencyData : Option (List ℕ)) :
    frequencyToVisemeFormant frequencyData = classifyAmended frequencyData := by
  unfold frequencyToVisemeFormant classifyAmended
  cases frequencyData with
  | none => rfl
  | some data =>
      have hs : formantScore data = amendedScore data :=
        funext (formantScore_eq_amendedScore data)
      dsimp only
      rw [hs]

/-! ## Claim C2: intensity 0 iff neutral, in the raw classifier output -/

/-- A 64-bin frame: silence in the formant bands except a small amount in
    bin 8, and broadband energy above every formant band. -/
def frameC2 : List ℕ :=
  (List.range 64).map (fun i => if i < 8 then 0 else if i = 8 then 40 else 12)

theorem selectMax_fst_ge (score : Viseme → ℚ) (order : List Viseme)
    (acc : ℚ × Viseme) :
    acc.1 ≤ (order.foldl
      (fun acc v => if acc.1 < score v then (score v, v) else acc) acc).1 := by
  induction order generalizing acc with
  | nil => exact le_refl _
  | cons v t ih =>
      rw [List.foldl_cons]
      by_cases h : acc.1 < score v
      · rw [if_pos h]; exact le_trans (le_of_lt h) (ih _)
      · rw [if_neg h]; exact ih _

set_option maxRecDepth 100000 in
/-- Claim C2 counterexample: on frameC2 the mean magnitude is above the
    silence threshold but the best formant score (10) is below the minimum
    score threshold (20), so the source returns viseme neutral together with
    the strictly positive intensity 10 / 150 = 1 / 15. -/
theorem classifier_neutral_positive_intensity_counterexample :
    frequencyToVisemeFormant (some frameC2) = (Viseme.neutral, 1 / 15) ∧
      ¬((1 : ℚ) / 15 = 0) :=
  ⟨by with_unfolding_all rfl, of_decide_eq_true (by with_unfolding_all rfl)⟩

/-- Claim C2 (amended): only one direction of the iff holds in the raw
    classifier output: whenever the reported intensity is 0 the viseme is
    neutral (equivalently, a non-neutral viseme always carries positive
    intensity); a neutral result may carry positive intensity when the best
    formant score is positive but below the minimum score threshold. -/
theorem classifier_intensity_zero_imp_neutral (frequencyData : Option (List ℕ))
    (h : (frequencyToVisemeFormant frequencyData).2 = 0) :
    (frequencyToVisemeFormant frequencyData).1 = Viseme.neutral := by
  unfold frequencyToVisemeFormant at h ⊢
  cases frequencyData with
  | none => rfl
  | some data =>
      dsimp only at h ⊢
      split_ifs at h ⊢ with h0 h1 h2
      · rfl
      · rfl
      · rfl
      · exfalso
        have hge : (20 : ℚ) ≤ (selectMax (formantScore data) visemeOrder).1 :=
          not_lt.mp h2
        have hpos : (0 : ℚ) < min 1 ((selectMax (formantScore data) visemeOrder).1 / 150) := by
          apply lt_min one_pos
          linarith
        exact hpos.ne' h

/-- Witness for the amended claim C2 at a concrete input: the absent frame
    reports intensity 0, and the theorem yields viseme neutral there. -/
theorem classifier_intensity_zero_imp_neutral_witness :
    (frequencyToVisemeFormant none).2 = 0 ∧
      (frequencyToVisemeFormant none).1 = Viseme.neutral :=
  ⟨rfl, classifier_intensity_zero_imp_neutral none rfl⟩

/-! ## Temporal smoother (VisemeSmoother, loadMixamoAnimation.ts) -/

structure SmootherEntry where
  viseme : Viseme
  intensity : ℚ
  timestamp : ℤ
deriving DecidableEq, Repr

structure VisemeSmoother where
  history : List SmootherEntry
  lastViseme : Viseme
  lastVisemeTime : ℤ
deriving DecidableEq, Repr

def historySize : ℕ := 3

def minDuration : ℤ := 30

/-- Push the new estimate; when the history exceeds historySize the oldest
    entry is shifted off. -/
def pushTrim (history : List SmootherEntry) (viseme : Viseme) (intensity : ℚ)
    (now : ℤ) : List SmootherEntry :=
  let h1 := history ++ [⟨viseme, intensity, now⟩]
  if historySize < h1.length then h1.tail else h1

/-- JavaScript Map.set update: add the weight onto an existing key, keeping
    its insertion position, or append the new key at the end. -/
def upsertScore : List (Viseme × ℚ) → Viseme → ℚ → List (Viseme × ℚ)
  | [], v, w => [(v, w)]
  | (v', s) :: rest, v, w =>
      if v' = v then (v', s + w) :: rest else (v', s) :: upsertScore rest v w

/-- The single loop of the source over the history: it accumulates the
    per-viseme weighted scores (in Map insertion order) and the weighted
    total intensity; the i-th-oldest of k entries has weight (i+1)/k. -/
def smootherScan (hist : List SmootherEntry) : List (Viseme × ℚ) × ℚ :=
  hist.enum.foldl
    (fun acc p =>
      let weight : ℚ := ((p.1 + 1 : ℕ) : ℚ) / hist.length
      (upsertScore acc.1 p.2.viseme weight, acc.2 + p.2.intensity * weight))
    ([], 0)

/-- The best-viseme scan of the source: bestViseme starts neutral with
    maxScore 0 and is replaced only on a strictly greater score. -/
def bestVisemeOf (scores : List (Viseme × ℚ)) : Viseme × ℚ :=
  scores.foldl (fun acc p => if acc.2 < p.2 then (p.1, p.2) else acc)
    (Viseme.neutral, 0)

/-- The last two raw history entries exist and agree on the viseme. -/
def lastTwoAgree (hist : List SmootherEntry) : Prop :=
  2 ≤ hist.length ∧
    (hist.get? (hist.length - 1)).map (fun e => e.viseme) =
    (hist.get? (hist.length - 2)).map (fun e => e.viseme)

instance (hist : List SmootherEntry) : Decidable (lastTwoAgree hist) := by
  unfold lastTwoAgree; infer_instance

/-- VisemeSmoother.add: push and trim the history; with fewer than 2
    samples return the input unchanged; otherwise compute the weighted
    scores, the candidate viseme and the weighted average intensity, commit
    a viseme change exactly when one of the three trigger conditions holds,
    and return the held viseme with the weighted average intensity. -/
def VisemeSmoother.add (s : VisemeSmoother) (viseme : Viseme) (intensity : ℚ)
    (now : ℤ) : VisemeSmoother × Viseme × ℚ :=
  let hist := pushTrim s.history viseme intensity now
  if hist.length < 2 then
    ({ s with history := hist }, viseme, intensity)
  else
    let scan := smootherScan hist
    let best := bestVisemeOf scan.1
    if 1 / 2 < intensity ∨
        (best.1 ≠ s.lastViseme ∧ minDuration < now - s.lastVisemeTime) ∨
        lastTwoAgree hist then
      ({ history := hist, lastViseme := best.1, lastVisemeTime := now },
        best.1, scan.2 / hist.length)
    else
      ({ history := hist, lastViseme := s.lastViseme,
         lastVisemeTime := s.lastVisemeTime }, s.lastViseme, scan.2 / hist.length)

/-- Claim C3: the held viseme changes at most once per add call (to the
    recency-weighted candidate), and it changes only when at least one of
    the three trigger conditions holds at that call: (a) the input intensity
    exceeds 1/2, (b) the candidate differs from the held viseme and more
    than the 30 ms dwell time has elapsed since the last committed change,
    or (c) the two most recent raw history entries agree. -/
theorem smoother_change_conditions (s : VisemeSmoother) (v : Viseme) (i : ℚ)
    (now : ℤ)
    (hchange : (VisemeSmoother.add s v i now).1.lastViseme ≠ s.lastViseme) :
    (VisemeSmoother.add s v i now).1.lastViseme
        = (bestVisemeOf (smootherScan (pushTrim s.history v i now)).1).1 ∧
      (1 / 2 < i ∨
        ((bestVisemeOf (smootherScan (pushTrim s.history v i now)).1).1
            ≠ s.lastViseme ∧
          minDuration < now - s.lastVisemeTime) ∨
        lastTwoAgree (pushTrim s.history v i now)) := by
  unfold VisemeSmoother.add at hchange ⊢
  dsimp only at hchange ⊢
  by_cases hlen : (pushTrim s.history v i now).length < 2
  · rw [if_pos hlen] at hchange
    exact absurd rfl hchange
  · rw [if_neg hlen] at hchange ⊢
    by_cases hcond : 1 / 2 < i ∨
        ((bestVisemeOf (smootherScan (pushTrim s.history v i now)).1).1
            ≠ s.lastViseme ∧
          minDuration < now - s.lastVisemeTime) ∨
        lastTwoAgree (pushTrim s.history v i now)
    · rw [if_pos hcond]
      exact ⟨rfl, hcond⟩
    · rw [if_neg hcond] at hchange
      exact absurd rfl hchange

def smootherW : VisemeSmoother := ⟨[⟨Viseme.aa, 1 / 4, 0⟩], Viseme.neutral, 0⟩

/-- Witness for claim C3 at a concrete call: a high-intensity aa input on a
    one-entry history commits a change away from neutral. -/
theorem smoother_change_conditions_witness :
    (VisemeSmoother.add smootherW Viseme.aa (3 / 5) 10).1.lastViseme
        = (bestVisemeOf (smootherScan
            (pushTrim smootherW.history Viseme.aa (3 / 5) 10)).1).1 ∧
      (1 / 2 < (3 / 5 : ℚ) ∨
        ((bestVisemeOf (smootherScan
            (pushTrim smootherW.history Viseme.aa (3 / 5) 10)).1).1
            ≠ smootherW.lastViseme ∧
          minDuration < 10 - smootherW.lastVisemeTime) ∨
        lastTwoAgree (pushTrim smootherW.history Viseme.aa (3 / 5) 10)) :=
  smoother_change_conditions smootherW Viseme.aa (3 / 5) 10
    (of_decide_eq_true (by with_unfolding_all rfl))

/-! ## Claim C4: the reported intensity of the smoother -/

/-- The reported intensity as the claim words it: the weighted average over
    the history, the i-th-oldest of the k entries entering with weight
    (i+1)/k (the source averages the weighted intensities over k). -/
def weightedAverageIntensity (hist : List SmootherEntry) : ℚ :=
  ((hist.enum.map
      (fun p => p.2.intensity * (((p.1 + 1 : ℕ) : ℚ) / hist.length))).sum)
    / hist.length

theorem foldl_snd_sum {α β : Type} (l : List α) (g : β → α → β) (f : α → ℚ)
    (a : β) (b : ℚ) :
    (l.foldl (fun acc p => (g acc.1 p, acc.2 + f p)) (a, b)).2
      = b + (l.map f).sum := by
  induction l generalizing a b with
  | nil => simp
  | cons x t ih =>
      rw [List.foldl_cons, ih, List.map_cons, List.sum_cons]
      ring

theorem smootherScan_snd (hist : List SmootherEntry) :
    (smootherScan hist).2
      = (hist.enum.map
          (fun p => p.2.intensity * (((p.1 + 1 : ℕ) : ℚ) / hist.length))).sum := by
  unfold smootherScan
  dsimp only
  have h := foldl_snd_sum hist.enum
    (fun (s : List (Viseme × ℚ)) (p : ℕ × SmootherEntry) =>
      upsertScore s p.2.viseme (((p.1 + 1 : ℕ) : ℚ) / hist.length))
    (fun (p : ℕ × SmootherEntry) =>
      p.2.intensity * (((p.1 + 1 : ℕ) : ℚ) / hist.length))
    [] 0
  rw [zero_add] at h
  exact h

/-- Claim C4: with fewer than 2 samples in the (pushed) history the add
    call returns the input estimate unchanged; with 2 or more samples the
    reported intensity is the weighted average of the history intensities
    with the i-th-oldest entry weighted (i+1)/k, and the reported intensity
    never depends on which viseme is held. -/
theorem smoother_reported_intensity (s : VisemeSmoother) (v : Viseme) (i : ℚ)
    (now : ℤ) :
    ((pushTrim s.history v i now).length < 2 →
        (VisemeSmoother.add s v i now).2 = (v, i)) ∧
      (2 ≤ (pushTrim s.history v i now).length →
        (VisemeSmoother.add s v i now).2.2
          = weightedAverageIntensity (pushTrim s.history v i now)) ∧
      (∀ lv : Viseme, ∀ lt : ℤ,
        (VisemeSmoother.add ⟨s.history, lv, lt⟩ v i now).2.2
          = (VisemeSmoother.add s v i now).2.2) := by
  refine ⟨?_, ?_, ?_⟩
  · intro hlen
    unfold VisemeSmoother.add
    dsimp only
    rw [if_pos hlen]
  · intro hlen
    unfold VisemeSmoother.add
    dsimp only
    rw [if_neg (not_lt.mpr hlen)]
    unfold weightedAverageIntensity
    rw [← smootherScan_snd]
    split_ifs <;> rfl
  · intro lv lt
    unfold VisemeSmoother.add
    dsimp only
    by_cases hlen : (pushTrim s.history v i now).length < 2
    · rw [if_pos hlen, if_pos hlen]
    · rw [if_neg hlen, if_neg hlen]
      split_ifs <;> rfl

/-- Witness for claim C4 at concrete calls: the bootstrap case on an empty
    history, and the weighted average on a two-entry history. -/
theorem smoother_reported_intensity_witness :
    (VisemeSmoother.add ⟨[], Viseme.neutral, 0⟩ Viseme.aa (1 / 3) 5).2
        = (Viseme.aa, 1 / 3) ∧
      (VisemeSmoother.add smootherW Viseme.aa (3 / 5) 10).2.2
        = weightedAverageIntensity
            (pushTrim smootherW.history Viseme.aa (3 / 5) 10) ∧
      (VisemeSmoother.add ⟨smootherW.history, Viseme.oh, 7⟩
          Viseme.aa (3 / 5) 10).2.2
        = (VisemeSmoother.add smootherW Viseme.aa (3 / 5) 10).2.2 :=
  ⟨(smoother_reported_intensity ⟨[], Viseme.neutral, 0⟩ Viseme.aa (1 / 3) 5).1
      (of_decide_eq_true (by with_unfolding_all rfl)),
    (smoother_reported_intensity smootherW Viseme.aa (3 / 5) 10).2.1
      (of_decide_eq_true (by with_unfolding_all rfl)),
    (smoother_reported_intensity smootherW Viseme.aa (3 / 5) 10).2.2
      Viseme.oh 7⟩

/-! ## Blink state machine (blinkController.ts) -/

inductive BlinkState where
  | idle | closing | opening
deriving DecidableEq, Repr

structure BlinkController where
  state : BlinkState
  blinkValue : ℚ
  lastBlinkTime : ℤ
  blinkStartTime : ℤ
deriving DecidableEq, Repr

def minCooldown : ℤ := 2000

def maxCooldown : ℤ := 4000

def closeDuration : ℚ := 50

def openDuration : ℚ := 100

def pauseThreshold : ℚ := 3 / 20

def blinkChance : ℚ := 3 / 10

def easeInQuad (t : ℚ) : ℚ := t * t

def easeOutQuad (t : ℚ) : ℚ := t * (2 - t)

/-- updateBlinkAnimation of the source: in closing the blink value follows
    easeInQuad of the clamped progress and the state flips to opening with a
    fresh phase clock once progress reaches 1; in opening it follows
    1 - easeOutQuad of the clamped progress and returns to idle pinned at 0
    once progress reaches 1. -/
def updateBlinkAnimation (c : BlinkController) (now : ℤ) : BlinkController :=
  let elapsed : ℚ := ((now - c.blinkStartTime : ℤ) : ℚ)
  match c.state with
  | .closing =>
      let progress := min 1 (elapsed / closeDuration)
      let c1 := { c with blinkValue := easeInQuad progress }
      if 1 ≤ progress then { c1 with state := .opening, blinkStartTime := now }
      else c1
  | .opening =>
      let progress := min 1 (elapsed / openDuration)
      let c1 := { c with blinkValue := 1 - easeOutQuad progress }
      if 1 ≤ progress then { c1 with state := .idle, blinkValue := 0 }
      else c1
  | .idle => c

/-- startBlink of the source. -/
def startBlink (c : BlinkController) (now : ℤ) : BlinkController :=
  { c with state := .closing, blinkStartTime := now, lastBlinkTime := now }

/-- BlinkController.update with the two Math.random draws passed in
    explicitly; the returned rational is the returned blink value. -/
def BlinkController.update (c : BlinkController) (audioIntensity : ℚ)
    (now : ℤ) (r1 r2 : ℚ) : BlinkController × ℚ :=
  if c.state ≠ BlinkState.idle then
    let c1 := updateBlinkAnimation c now
    (c1, c1.blinkValue)
  else
    if (minCooldown < now - c.lastBlinkTime ∧ audioIntensity < pauseThreshold ∧
          r1 < blinkChance) ∨
        (maxCooldown < now - c.lastBlinkTime ∧ r2 < 1 / 2) then
      (startBlink c now, c.blinkValue)
    else (c, c.blinkValue)

theorem updateBlink_closing (c : BlinkController) (now : ℤ)
    (h : c.state = BlinkState.closing) :
    updateBlinkAnimation c now =
      (let progress := min 1 (((now - c.blinkStartTime : ℤ) : ℚ) / closeDuration)
       let c1 := { c with blinkValue := easeInQuad progress }
       if 1 ≤ progress then { c1 with state := BlinkState.opening, blinkStartTime := now }
       else c1) := by
  unfold updateBlinkAnimation
  rw [h]

theorem updateBlink_opening (c : BlinkController) (now : ℤ)
    (h : c.state = BlinkState.opening) :
    updateBlinkAnimation c now =
      (let progress := min 1 (((now - c.blinkStartTime : ℤ) : ℚ) / openDuration)
       let c1 := { c with blinkValue := 1 - easeOutQuad progress }
       if 1 ≤ progress then { c1 with state := BlinkState.idle, blinkValue := 0 }
       else c1) := by
  unfold updateBlinkAnimation
  rw [h]

theorem updateBlink_idle (c : BlinkController) (now : ℤ)
    (h : c.state = BlinkState.idle) :
    updateBlinkAnimation c now = c := by
  unfold updateBlinkAnimation
  rw [h]

set_option maxRecDepth 100000 in
/-- Claim C5 counterexample: a blink that starts at time 0 and is updated at
    times 60 and 170 runs through a complete cycle (closing from the call at
    time 0, value 1 and opening at the call at 60, value 0 and idle at the
    call at 170) whose total duration 170 differs from
    closeDuration + openDuration = 150: with discrete update calls each
    phase lasts until the first call at or after its nominal end, so the
    cycle is not exactly closeDuration + openDuration long. -/
theorem blink_cycle_duration_counterexample :
    (BlinkController.update ⟨BlinkState.idle, 0, -5000, 0⟩ 0 0 0 1).1
        = ⟨BlinkState.closing, 0, 0, 0⟩ ∧
      (BlinkController.update ⟨BlinkState.closing, 0, 0, 0⟩ 0 60 0 1).1
        = ⟨BlinkState.opening, 1, 0, 60⟩ ∧
      (BlinkController.update ⟨BlinkState.opening, 1, 0, 60⟩ 0 170 0 1).1
        = ⟨BlinkState.idle, 0, 0, 60⟩ ∧
      ((170 - 0 : ℚ) ≠ closeDuration + openDuration) :=
  of_decide_eq_true (by with_unfolding_all rfl)

/-- Claim C5 (amended): once a blink is in closing, across successive update
    calls the blink value is non-decreasing until it reaches 1 (it equals 1
    exactly when the state flips to opening); from opening it is
    non-increasing until it reaches 0 and the state returns to idle; each
    phase ends at the first update call at or after its nominal duration, so
    a full cycle lasts at least closeDuration + openDuration, with equality
    exactly when the two phase-crossing calls land exactly on the nominal
    phase ends. -/
theorem blink_cycle_amended :
    (∀ (c : BlinkController) (a : ℚ) (now : ℤ) (r1 r2 : ℚ),
        c.state ≠ BlinkState.idle →
        BlinkController.update c a now r1 r2
          = (updateBlinkAnimation c now, (updateBlinkAnimation c now).blinkValue)) ∧
      (∀ (c : BlinkController) (t1 t2 : ℤ), c.state = BlinkState.closing →
        c.blinkStartTime ≤ t1 → t1 ≤ t2 →
        (updateBlinkAnimation c t1).state = BlinkState.closing →
        (updateBlinkAnimation c t1).blinkValue
          ≤ (updateBlinkAnimation (updateBlinkAnimation c t1) t2).blinkValue) ∧
      (∀ (c : BlinkController) (t : ℤ), c.state = BlinkState.closing →
        (updateBlinkAnimation c t).state = BlinkState.opening →
        (updateBlinkAnimation c t).blinkValue = 1) ∧
      (∀ (c : BlinkController) (t1 t2 : ℤ), c.state = BlinkState.opening →
        c.blinkStartTime ≤ t1 → t1 ≤ t2 →
        (updateBlinkAnimation (updateBlinkAnimation c t1) t2).blinkValue
          ≤ (updateBlinkAnimation c t1).blinkValue) ∧
      (∀ (c : BlinkController) (t : ℤ), c.state = BlinkState.opening →
        (updateBlinkAnimation c t).state = BlinkState.idle →
        (updateBlinkAnimation c t).blinkValue = 0) ∧
      (∀ (c : BlinkController) (t1 t2 : ℤ), c.state = BlinkState.closing →
        (updateBlinkAnimation c t1).state = BlinkState.opening →
        (updateBlinkAnimation (updateBlinkAnimation c t1) t2).state = BlinkState.idle →
        (closeDuration + openDuration ≤ ((t2 - c.blinkStartTime : ℤ) : ℚ) ∧
          (((t2 - c.blinkStartTime : ℤ) : ℚ) = closeDuration + openDuration ↔
            t1 = c.blinkStartTime + 50 ∧ t2 = t1 + 100))) := by
  refine ⟨?_, ?_, ?_, ?_, ?_, ?_⟩
  · intro c a now r1 r2 h
    unfold BlinkController.update
    rw [if_pos h]
  · intro c t1 t2 hst h1 h12 hcl
    have e1 := updateBlink_closing c t1 hst
    dsimp only at e1
    have hp1 : (0 : ℚ) ≤ min 1 (((t1 - c.blinkStartTime : ℤ) : ℚ) / closeDuration) := by
      apply le_min (by norm_num)
      apply div_nonneg _ (by norm_num [closeDuration])
      exact_mod_cast Int.sub_nonneg.mpr h1
    have hle1 : min 1 (((t1 - c.blinkStartTime : ℤ) : ℚ) / closeDuration) ≤ 1 :=
      min_le_left _ _
    have hmono : min 1 (((t1 - c.blinkStartTime : ℤ) : ℚ) / closeDuration)
        ≤ min 1 (((t2 - c.blinkStartTime : ℤ) : ℚ) / closeDuration) := by
      apply min_le_min (le_refl 1)
      have hab : ((t1 - c.blinkStartTime : ℤ) : ℚ)
          ≤ ((t2 - c.blinkStartTime : ℤ) : ℚ) := by
        exact_mod_cast Int.sub_le_sub_right h12 c.blinkStartTime
      exact div_le_div_of_nonneg_right hab (by norm_num [closeDuration])
    by_cases hp : (1 : ℚ) ≤ min 1 (((t1 - c.blinkStartTime : ℤ) : ℚ) / closeDuration)
    · rw [e1, if_pos hp] at hcl
      dsimp only at hcl
      exact absurd hcl (by decide)
    · rw [e1, if_neg hp]
      dsimp only
      have e2 := updateBlink_closing
        { c with blinkValue :=
            easeInQuad (min 1 (((t1 - c.blinkStartTime : ℤ) : ℚ) / closeDuration)) }
        t2 hst
      dsimp only at e2
      rw [e2]
      by_cases hq : (1 : ℚ) ≤ min 1 (((t2 - c.blinkStartTime : ℤ) : ℚ) / closeDuration)
      · rw [if_pos hq]
        dsimp only
        have hq1 : min 1 (((t2 - c.blinkStartTime : ℤ) : ℚ) / closeDuration) = 1 :=
          le_antisymm (min_le_left _ _) hq
        rw [hq1]
        unfold easeInQuad
        nlinarith
      · rw [if_neg hq]
        dsimp only
        unfold easeInQuad
        exact mul_self_le_mul_self hp1 hmono
  · intro c t hst hcross
    have e1 := updateBlink_closing c t hst
    dsimp only at e1
    by_cases hp : (1 : ℚ) ≤ min 1 (((t - c.blinkStartTime : ℤ) : ℚ) / closeDuration)
    · rw [e1, if_pos hp]
      dsimp only
      have hq1 : min 1 (((t - c.blinkStartTime : ℤ) : ℚ) / closeDuration) = 1 :=
        le_antisymm (min_le_left _ _) hp
      rw [hq1]
      norm_num [easeInQuad]
    · rw [e1, if_neg hp] at hcross
      dsimp only at hcross
      rw [hst] at hcross
      exact absurd hcross (by decide)
  · intro c t1 t2 hst h1 h12
    have e1 := updateBlink_opening c t1 hst
    dsimp only at e1
    have hp1 : (0 : ℚ) ≤ min 1 (((t1 - c.blinkStartTime : ℤ) : ℚ) / openDuration) := by
      apply le_min (by norm_num)
      apply div_nonneg _ (by norm_num [openDuration])
      exact_mod_cast Int.sub_nonneg.mpr h1
    by_cases hp : (1 : ℚ) ≤ min 1 (((t1 - c.blinkStartTime : ℤ) : ℚ) / openDuration)
    · rw [e1, if_pos hp]
      dsimp only
      rw [updateBlink_idle _ t2 rfl]
    · rw [e1, if_neg hp]
      dsimp only
      have e2 := updateBlink_opening
        { c with blinkValue :=
            1 - easeOutQuad (min 1 (((t1 - c.blinkStartTime : ℤ) : ℚ) / openDuration)) }
        t2 hst
      dsimp only at e2
      rw [e2]
      have hle1 : min 1 (((t1 - c.blinkStartTime : ℤ) : ℚ) / openDuration) ≤ 1 :=
        min_le_left _ _
      have hmono : min 1 (((t1 - c.blinkStartTime : ℤ) : ℚ) / openDuration)
          ≤ min 1 (((t2 - c.blinkStartTime : ℤ) : ℚ) / openDuration) := by
        apply min_le_min (le_refl 1)
        have hab : ((t1 - c.blinkStartTime : ℤ) : ℚ)
            ≤ ((t2 - c.blinkStartTime : ℤ) : ℚ) := by
          exact_mod_cast Int.sub_le_sub_right h12 c.blinkStartTime
        exact div_le_div_of_nonneg_right hab (by norm_num [openDuration])
      have hle2 : min 1 (((t2 - c.blinkStartTime : ℤ) : ℚ) / openDuration) ≤ 1 :=
        min_le_left _ _
      by_cases hq : (1 : ℚ) ≤ min 1 (((t2 - c.blinkStartTime : ℤ) : ℚ) / openDuration)
      · rw [if_pos hq]
        dsimp only
        unfold easeOutQuad
        nlinarith
      · rw [if_neg hq]
        dsimp only
        unfold easeOutQuad
        nlinarith
  · intro c t hst hcross
    have e1 := updateBlink_opening c t hst
    dsimp only at e1
    by_cases hp : (1 : ℚ) ≤ min 1 (((t - c.blinkStartTime : ℤ) : ℚ) / openDuration)
    · rw [e1, if_pos hp]
    · rw [e1, if_neg hp] at hcross
      dsimp only at hcross
      rw [hst] at hcross
      exact absurd hcross (by decide)
  · intro c t1 t2 hst hcr1 hcr2
    have e1 := updateBlink_closing c t1 hst
    dsimp only at e1
    by_cases hp : (1 : ℚ) ≤ min 1 (((t1 - c.blinkStartTime : ℤ) : ℚ) / closeDuration)
    · have hx : (1 : ℚ) ≤ ((t1 - c.blinkStartTime : ℤ) : ℚ) / closeDuration :=
        (le_min_iff.mp hp).2
      rw [closeDuration] at hx
      have h50q : (50 : ℚ) ≤ ((t1 - c.blinkStartTime : ℤ) : ℚ) := by
        have := (le_div_iff₀ (by norm_num : (0 : ℚ) < 50)).mp hx
        linarith
      have h50 : (50 : ℤ) ≤ t1 - c.blinkStartTime := by exact_mod_cast h50q
      rw [e1, if_pos hp] at hcr2
      have e2 := updateBlink_opening
        ⟨BlinkState.opening,
          easeInQuad (min 1 (((t1 - c.blinkStartTime : ℤ) : ℚ) / closeDuration)),
          c.lastBlinkTime, t1⟩
        t2 rfl
      dsimp only at e2
      by_cases hq : (1 : ℚ) ≤ min 1 (((t2 - t1 : ℤ) : ℚ) / openDuration)
      · have hy : (1 : ℚ) ≤ ((t2 - t1 : ℤ) : ℚ) / openDuration :=
          (le_min_iff.mp hq).2
        rw [openDuration] at hy
        have h100q : (100 : ℚ) ≤ ((t2 - t1 : ℤ) : ℚ) := by
          have := (le_div_iff₀ (by norm_num : (0 : ℚ) < 100)).mp hy
          linarith
        have h100 : (100 : ℤ) ≤ t2 - t1 := by exact_mod_cast h100q
        constructor
        · rw [closeDuration, openDuration]
          have h150 : (150 : ℤ) ≤ t2 - c.blinkStartTime := by omega
          have : (150 : ℚ) ≤ ((t2 - c.blinkStartTime : ℤ) : ℚ) := by exact_mod_cast h150
          linarith
        · rw [closeDuration, openDuration]
          constructor
          · intro he
            have h150 : (t2 - c.blinkStartTime : ℤ) = 150 := by
              have hq150 : ((t2 - c.blinkStartTime : ℤ) : ℚ) = (150 : ℚ) := by
                rw [he]; norm_num
              exact_mod_cast hq150
            omega
          · rintro ⟨ha, hb⟩
            have h150 : (t2 - c.blinkStartTime : ℤ) = 150 := by omega
            have : ((t2 - c.blinkStartTime : ℤ) : ℚ) = ((150 : ℤ) : ℚ) := by
              exact_mod_cast h150
            rw [this]
            norm_num
      · rw [e2, if_neg hq] at hcr2
        dsimp only at hcr2
        exact absurd hcr2 (by decide)
    · rw [e1, if_neg hp] at hcr1
      dsimp only at hcr1
      rw [hst] at hcr1
      exact absurd hcr1 (by decide)

/-- Witness for the amended claim C5 at concrete calls: a mid-phase closing
    update is monotone, and the crossing calls at times 60 and 170 give a
    cycle of duration 170, at least 150 and not exactly 150. -/
theorem blink_cycle_amended_witness :
    ((updateBlinkAnimation ⟨BlinkState.closing, 0, 0, 0⟩ 20).blinkValue
        ≤ (updateBlinkAnimation
            (updateBlinkAnimation ⟨BlinkState.closing, 0, 0, 0⟩ 20) 30).blinkValue) ∧
      (closeDuration + openDuration ≤ ((170 - (0 : ℤ) : ℤ) : ℚ) ∧
        (((170 - (0 : ℤ) : ℤ) : ℚ) = closeDuration + openDuration ↔
          (60 : ℤ) = (0 : ℤ) + 50 ∧ (170 : ℤ) = 60 + 100)) :=
  ⟨blink_cycle_amended.2.1 ⟨BlinkState.closing, 0, 0, 0⟩ 20 30
      (of_decide_eq_true (by with_unfolding_all rfl))
      (of_decide_eq_true (by with_unfolding_all rfl))
      (of_decide_eq_true (by with_unfolding_all rfl))
      (of_decide_eq_true (by with_unfolding_all rfl)),
    blink_cycle_amended.2.2.2.2.2 ⟨BlinkState.closing, 0, 0, 0⟩ 60 170
      (of_decide_eq_true (by with_unfolding_all rfl))
      (of_decide_eq_true (by with_unfolding_all rfl))
      (of_decide_eq_true (by with_unfolding_all rfl))⟩

/-! ## Animation blend controller (VRM scene component, unnamed part 000)

The three.js mixer is the external collaborator; an AnimationAction is
modelled at the level of the data the source reads and writes: running,
paused and enabled flags, the playback time, the time scale, the effective
weight, and the scheduled linear weight fade.  stop and reset of the
collaborator are modelled as deactivation (running false) and rewind
(time 0, paused false, fade cancelled).  setTimeout callbacks are modelled
as pending (dueTime, clip) entries fired by fireTimeouts, which never fires
an entry before its due time. -/

inductive ClipName where
  | idle | greeting | waveHipHop | northernSoulSpin
deriving DecidableEq, Repr

/-- A scheduled linear weight fade from a weight toward a target weight
    over a duration starting at a time. -/
structure Fade where
  startTime : ℚ
  duration : ℚ
  fromWeight : ℚ
  toWeight : ℚ
deriving DecidableEq, Repr

structure AnimationAction where
  running : Bool
  paused : Bool
  enabled : Bool
  time : ℚ
  timeScale : ℚ
  weight : ℚ
  fade : Option Fade
deriving DecidableEq, Repr

structure BlendState where
  idleA : Option AnimationAction
  greetingA : Option AnimationAction
  waveHipHopA : Option AnimationAction
  northernSoulSpinA : Option AnimationAction
  pending : List (ℚ × ClipName)
deriving DecidableEq, Repr

def lookupAction (s : BlendState) : ClipName → Option AnimationAction
  | .idle => s.idleA
  | .greeting => s.greetingA
  | .waveHipHop => s.waveHipHopA
  | .northernSoulSpin => s.northernSoulSpinA

def setAction (s : BlendState) : ClipName → Option AnimationAction → BlendState
  | .idle, oa => { s with idleA := oa }
  | .greeting, oa => { s with greetingA := oa }
  | .waveHipHop, oa => { s with waveHipHopA := oa }
  | .northernSoulSpin, oa => { s with northernSoulSpinA := oa }

/-- action.fadeOut(d) at the current time: schedule a fade from the current
    weight to 0 over d. -/
def fadeOutAction (a : AnimationAction) (now d : ℚ) : AnimationAction :=
  { a with fade := some ⟨now, d, a.weight, 0⟩ }

/-- The loop body of the idle branch for one one-shot action: an active
    action (running or paused) is faded out; the Bool reports whether a
    cleanup was scheduled for it. -/
def fadeOutStep (oa : Option AnimationAction) (now d : ℚ) :
    Option AnimationAction × Bool :=
  match oa with
  | some a => if a.running || a.paused then (some (fadeOutAction a now d), true)
              else (oa, false)
  | none => (oa, false)

/-- The deferred setTimeout body of the source: enabled = false,
    paused = false, stop (deactivate), reset (time 0, fade cancelled). -/
def cleanupAction (a : AnimationAction) : AnimationAction :=
  { a with
    enabled := false
    paused := false
    running := false
    time := 0
    fade := none }

/-- The idle branch of playAnimation: fade out every active one-shot and
    schedule its cleanup at now + d; restart the idle action when it was
    stopped; enable it, restore the time scale and weight and fade it back
    in (its time is never reset). -/
def playAnimationIdleBody (s : BlendState) (d now : ℚ)
    (idleAction : AnimationAction) : BlendState :=
  let g := fadeOutStep s.greetingA now d
  let w := fadeOutStep s.waveHipHopA now d
  let n := fadeOutStep s.northernSoulSpinA now d
  let pend := s.pending
    ++ (if g.2 then [(now + d, ClipName.greeting)] else [])
    ++ (if w.2 then [(now + d, ClipName.waveHipHop)] else [])
    ++ (if n.2 then [(now + d, ClipName.northernSoulSpin)] else [])
  let ia1 := if idleAction.running then idleAction
             else { idleAction with running := true }
  let ia2 := { ia1 with
    enabled := true
    timeScale := 1
    weight := 1
    fade := some (⟨now, d, 0, 1⟩ : Fade) }
  { idleA := some ia2, greetingA := g.1, waveHipHopA := w.1,
    northernSoulSpinA := n.1, pending := pend }

/-- playAnimation of the source: a missing action returns immediately; the
    idle target runs the idle branch; a one-shot target fades the idle
    action out without stopping it, resets the target to time 0, enables it,
    fades it in and plays it. -/
def playAnimation (s : BlendState) (ty : ClipName) (d now : ℚ) : BlendState :=
  match lookupAction s ty with
  | none => s
  | some newAction =>
      if ty = ClipName.idle then playAnimationIdleBody s d now newAction
      else
        let s1 := match s.idleA with
          | some ia => if ia.running then
                { s with idleA := some (fadeOutAction ia now d) }
              else s
          | none => s
        let r0 := { newAction with
          paused := false
          enabled := true
          time := 0
          fade := none }
        let r2 := { r0 with
          enabled := true
          timeScale := 1
          weight := 1
          fade := some (⟨now, d, 0, 1⟩ : Fade)
          running := true }
        setAction s1 ty (some r2)

/-- One fired setTimeout cleanup. -/
def cleanupStep (acc : BlendState) (p : ℚ × ClipName) : BlendState :=
  match lookupAction acc p.2 with
  | none => acc
  | some a => setAction acc p.2 (some (cleanupAction a))

/-- Fire every pending cleanup whose due time has been reached; a timer
    callback never runs before its delay has elapsed. -/
def fireTimeouts (s : BlendState) (t : ℚ) : BlendState :=
  let due := s.pending.filter (fun p => decide (p.1 ≤ t))
  let rest := s.pending.filter (fun p => decide (¬(p.1 ≤ t)))
  due.foldl cleanupStep { s with pending := rest }

theorem lookup_setAction (s : BlendState) (k' : ClipName)
    (oa : Option AnimationAction) (k : ClipName) :
    lookupAction (setAction s k' oa) k = if k = k' then oa else lookupAction s k := by
  cases k <;> cases k' <;> simp [lookupAction, setAction]

theorem lookup_cleanupStep (acc : BlendState) (p : ℚ × ClipName) (k : ClipName) :
    lookupAction (cleanupStep acc p) k
      = if k = p.2 then (lookupAction acc p.2).map cleanupAction
        else lookupAction acc k := by
  unfold cleanupStep
  cases h : lookupAction acc p.2 with
  | none =>
      by_cases hk : k = p.2
      · rw [if_pos hk, hk, h]
        rfl
      · rw [if_neg hk]
  | some a =>
      rw [lookup_setAction]
      by_cases hk : k = p.2 <;> simp [hk, h]

theorem cleanupAction_idem (a : AnimationAction) :
    cleanupAction (cleanupAction a) = cleanupAction a := rfl

theorem foldCleanup_lookup (l : List (ℚ × ClipName)) (s : BlendState)
    (k : ClipName) :
    lookupAction (l.foldl cleanupStep s) k
      = if k ∈ l.map Prod.snd then (lookupAction s k).map cleanupAction
        else lookupAction s k := by
  induction l generalizing s with
  | nil => simp
  | cons p rest ih =>
      rw [List.foldl_cons, ih]
      by_cases hk : k ∈ rest.map Prod.snd
      · rw [if_pos hk, if_pos (by simp [hk])]
        rw [lookup_cleanupStep]
        by_cases hkp : k = p.2
        · rw [if_pos hkp, hkp, Option.map_map]
          have : cleanupAction ∘ cleanupAction = cleanupAction :=
            funext cleanupAction_idem
          rw [this]
        · rw [if_neg hkp]
      · by_cases hkp : k = p.2
        · rw [if_neg hk, if_pos (by simp [hkp]), lookup_cleanupStep, if_pos hkp, hkp]
        · rw [if_neg hk, if_neg (by simp [hkp, hk]), lookup_cleanupStep, if_neg hkp]

theorem lookup_pending_irrel (s : BlendState) (l : List (ℚ × ClipName))
    (k : ClipName) :
    lookupAction { s with pending := l } k = lookupAction s k := by
  cases k <;> rfl

/-- Every cleanup scheduled by the idle branch on a previously clean state
    is due exactly at now + d. -/
theorem idleBody_pending_times (s : BlendState) (d now : ℚ)
    (ia : AnimationAction) (hpend : s.pending = []) :
    ∀ p ∈ (playAnimationIdleBody s d now ia).pending, p.1 = now + d := by
  intro p hp
  unfold playAnimationIdleBody at hp
  dsimp only at hp
  rw [hpend] at hp
  simp only [List.nil_append, List.mem_append] at hp
  rcases hp with (hp | hp) | hp <;> split_ifs at hp <;>
    simp only [List.mem_singleton, List.not_mem_nil] at hp <;>
    rw [hp]

/-- The idle action after the idle branch: restarted when stopped, enabled,
    time scale and weight restored, fading back to weight 1; its time is
    never reset. -/
def idleResumed (ia : AnimationAction) (now d : ℚ) : AnimationAction :=
  { ia with
    running := true
    enabled := true
    timeScale := 1
    weight := 1
    fade := some (⟨now, d, 0, 1⟩ : Fade) }

theorem idleBody_idleAction (s : BlendState) (d now : ℚ) (ia : AnimationAction) :
    (playAnimationIdleBody s d now ia).idleA = some (idleResumed ia now d) := by
  cases ia with
  | mk running paused enabled time timeScale weight fade =>
      cases running <;> simp [playAnimationIdleBody, idleResumed]

theorem idleBody_oneShot (s : BlendState) (d now : ℚ) (ia a : AnimationAction)
    (k : ClipName) (hk : k ≠ ClipName.idle)
    (ha : lookupAction s k = some a) (hb : (a.running || a.paused) = true) :
    lookupAction (playAnimationIdleBody s d now ia) k
        = some (fadeOutAction a now d) ∧
      (now + d, k) ∈ (playAnimationIdleBody s d now ia).pending := by
  cases k with
  | idle => exact absurd rfl hk
  | greeting =>
      have ha' : s.greetingA = some a := ha
      constructor
      · simp [playAnimationIdleBody, lookupAction, ha', fadeOutStep, hb]
      · simp [playAnimationIdleBody, ha', fadeOutStep, hb, List.mem_append]
  | waveHipHop =>
      have ha' : s.waveHipHopA = some a := ha
      constructor
      · simp [playAnimationIdleBody, lookupAction, ha', fadeOutStep, hb]
      · simp [playAnimationIdleBody, ha', fadeOutStep, hb, List.mem_append]
  | northernSoulSpin =>
      have ha' : s.northernSoulSpinA = some a := ha
      constructor
      · simp [playAnimationIdleBody, lookupAction, ha', fadeOutStep, hb]
      · simp [playAnimationIdleBody, ha', fadeOutStep, hb, List.mem_append]

/-- Claim C6: when requestAnimation targets the background (idle) clip on a
    state with no stale pending cleanup, every active one-shot action is
    scheduled to fade its weight to 0 from now over the requested duration
    with its cleanup due exactly at now + d; firing timeouts strictly before
    now + d leaves the action faded but neither disabled nor reset, firing
    them at or after now + d disables it, deactivates it and resets its time
    to 0; the background action is restarted when it was stopped and in
    either case only its weight is faded back to 1 (its time is kept). -/
theorem blend_idle_transition (s : BlendState) (d now : ℚ) (k : ClipName)
    (a ia : AnimationAction)
    (hk : k ≠ ClipName.idle)
    (hpend : s.pending = [])
    (hidle : s.idleA = some ia)
    (ha : lookupAction s k = some a)
    (hact : a.running = true ∨ a.paused = true) :
    (lookupAction (playAnimation s ClipName.idle d now) k
        = some (fadeOutAction a now d) ∧
      (now + d, k) ∈ (playAnimation s ClipName.idle d now).pending) ∧
      (∀ t : ℚ, t < now + d →
        lookupAction (fireTimeouts (playAnimation s ClipName.idle d now) t) k
          = some (fadeOutAction a now d)) ∧
      (∀ t : ℚ, now + d ≤ t →
        lookupAction (fireTimeouts (playAnimation s ClipName.idle d now) t) k
          = some (cleanupAction (fadeOutAction a now d))) ∧
      (playAnimation s ClipName.idle d now).idleA = some (idleResumed ia now d) := by
  have hb : (a.running || a.paused) = true := by
    rcases hact with h | h <;> simp [h]
  have hplay : playAnimation s ClipName.idle d now = playAnimationIdleBody s d now ia := by
    unfold playAnimation
    rw [show lookupAction s ClipName.idle = s.idleA from rfl, hidle]
    simp
  have hmain := idleBody_oneShot s d now ia a k hk ha hb
  refine ⟨by rw [hplay]; exact hmain, ?_, ?_, by rw [hplay]; exact idleBody_idleAction s d now ia⟩
  · intro t ht
    rw [hplay]
    unfold fireTimeouts
    dsimp only
    have hdue : (playAnimationIdleBody s d now ia).pending.filter
        (fun p => decide (p.1 ≤ t)) = [] := by
      rw [List.filter_eq_nil_iff]
      intro p hp
      have hpt := idleBody_pending_times s d now ia hpend p hp
      simp only [hpt, decide_eq_true_eq]
      linarith
    rw [hdue, List.foldl_nil, lookup_pending_irrel]
    exact hmain.1
  · intro t ht
    rw [hplay]
    unfold fireTimeouts
    dsimp only
    have hdue : (playAnimationIdleBody s d now ia).pending.filter
        (fun p => decide (p.1 ≤ t)) = (playAnimationIdleBody s d now ia).pending := by
      rw [List.filter_eq_self]
      intro p hp
      have hpt := idleBody_pending_times s d now ia hpend p hp
      simp only [hpt, decide_eq_true_eq]
      linarith
    rw [hdue, foldCleanup_lookup]
    have hkmem : k ∈ (playAnimationIdleBody s d now ia).pending.map Prod.snd :=
      List.mem_map.mpr ⟨(now + d, k), hmain.2, rfl⟩
    rw [if_pos hkmem, lookup_pending_irrel, hmain.1]
    rfl

def idleActionW : AnimationAction := ⟨true, false, true, 3, 1, 1, none⟩

def greetingActionW : AnimationAction := ⟨true, false, true, 2, 1, 1, none⟩

def blendW : BlendState := ⟨some idleActionW, some greetingActionW, none, none, []⟩

/-- Witness for claim C6 at a concrete state: a running greeting one-shot,
    the background transition requested at time 10 over duration 1/2. -/
theorem blend_idle_transition_witness :
    (lookupAction (playAnimation blendW ClipName.idle (1 / 2) 10) ClipName.greeting
        = some (fadeOutAction greetingActionW 10 (1 / 2)) ∧
      (10 + 1 / 2, ClipName.greeting)
        ∈ (playAnimation blendW ClipName.idle (1 / 2) 10).pending) ∧
      (∀ t : ℚ, t < 10 + 1 / 2 →
        lookupAction (fireTimeouts (playAnimation blendW ClipName.idle (1 / 2) 10) t)
            ClipName.greeting
          = some (fadeOutAction greetingActionW 10 (1 / 2))) ∧
      (∀ t : ℚ, 10 + 1 / 2 ≤ t →
        lookupAction (fireTimeouts (playAnimation blendW ClipName.idle (1 / 2) 10) t)
            ClipName.greeting
          = some (cleanupAction (fadeOutAction greetingActionW 10 (1 / 2)))) ∧
      (playAnimation blendW ClipName.idle (1 / 2) 10).idleA
        = some (idleResumed idleActionW 10 (1 / 2)) :=
  blend_idle_transition blendW (1 / 2) 10 ClipName.greeting greetingActionW idleActionW
    (by decide) rfl rfl rfl (Or.inl rfl)

/-! ## Claim C7: unknown or unregistered animation triggers -/

/-- The alias table of the animation-trigger effect, applied to the
    lower-cased trigger name. -/
def animationMap (s : String) : Option ClipName :=
  if s = "greeting" then some ClipName.greeting
  else if s = "idle" then some ClipName.idle
  else if s = "hiphopdance" then some ClipName.waveHipHop
  else if s = "wavehiphopdance" then some ClipName.waveHipHop
  else if s = "northernsoulspin" then some ClipName.northernSoulSpin
  else if s = "spin" then some ClipName.northernSoulSpin
  else none

/-- The animation-trigger effect: resolve the name case-insensitively; an
    unknown name is only logged (modelled as the unchanged state), a known
    name plays the animation with crossfade duration 0.5. -/
def handleAnimationTrigger (s : BlendState) (name : String) (now : ℚ) : BlendState :=
  match animationMap name.toLower with
  | none => s
  | some ty => playAnimation s ty (1 / 2) now

/-- Claim C7: a trigger whose case-insensitively resolved name maps to no
    known clip is ignored, and a trigger naming a clip whose action was
    never registered is ignored: the whole blend state (weight, time,
    enabled of every action) is unchanged, and the handler is total, so no
    exception is thrown. -/
theorem trigger_unknown_or_unregistered (s : BlendState) (name : String) (now : ℚ) :
    (animationMap name.toLower = none → handleAnimationTrigger s name now = s) ∧
      (∀ ty : ClipName, animationMap name.toLower = some ty →
        lookupAction s ty = none → handleAnimationTrigger s name now = s) := by
  constructor
  · intro h
    unfold handleAnimationTrigger
    rw [h]
  · intro ty h hnone
    unfold handleAnimationTrigger
    rw [h]
    dsimp only
    unfold playAnimation
    rw [hnone]

def emptyBlend : BlendState := ⟨none, none, none, none, []⟩

/-- Witness for claim C7 at concrete triggers: the unknown name dance and
    the known name Greeting whose action is not registered both leave the
    state unchanged. -/
theorem trigger_unknown_or_unregistered_witness :
    handleAnimationTrigger emptyBlend "dance" 0 = emptyBlend ∧
      handleAnimationTrigger emptyBlend "Greeting" 0 = emptyBlend :=
  ⟨(trigger_unknown_or_unregistered emptyBlend "dance" 0).1
      (by with_unfolding_all rfl),
    (trigger_unknown_or_unregistered emptyBlend "Greeting" 0).2 ClipName.greeting
      (by with_unfolding_all rfl) rfl⟩

/-! ## Skeletal retargeter (loadMixamoAnimation.ts)

JavaScript numbers in the retargeting path are modelled as either an exact
rational or NaN; the undefined produced by a failed optional chain behaves
as NaN as soon as it enters arithmetic.  Division by an exact zero is also
mapped to NaN (the hip-scale path under scrutiny divides by NaN, never by
an exact zero). -/

inductive JsNum where
  | nan
  | val (q : ℚ)
deriving DecidableEq, Repr

def jadd : JsNum → JsNum → JsNum
  | .val a, .val b => .val (a + b)
  | _, _ => .nan

def jsub : JsNum → JsNum → JsNum
  | .val a, .val b => .val (a - b)
  | _, _ => .nan

def jmul : JsNum → JsNum → JsNum
  | .val a, .val b => .val (a * b)
  | _, _ => .nan

def jneg : JsNum → JsNum
  | .val a => .val (-a)
  | .nan => .nan

def jabs : JsNum → JsNum
  | .val a => .val |a|
  | .nan => .nan

def jdiv : JsNum → JsNum → JsNum
  | .val a, .val b => if b = 0 then .nan else .val (a / b)
  | _, _ => .nan

/-- An undefined optional value entering arithmetic behaves as NaN. -/
def jsOfOpt : Option ℚ → JsNum
  | none => .nan
  | some q => .val q

structure JsQuat where
  x : JsNum
  y : JsNum
  z : JsNum
  w : JsNum
deriving DecidableEq, Repr

/-- three.js Quaternion.multiplyQuaternions(a, b), component formulas in
    JavaScript evaluation order. -/
def quatMul (a b : JsQuat) : JsQuat :=
  ⟨jsub (jadd (jadd (jmul a.x b.w) (jmul a.w b.x)) (jmul a.y b.z)) (jmul a.z b.y),
    jsub (jadd (jadd (jmul a.y b.w) (jmul a.w b.y)) (jmul a.z b.x)) (jmul a.x b.z),
    jsub (jadd (jadd (jmul a.z b.w) (jmul a.w b.z)) (jmul a.x b.y)) (jmul a.y b.x),
    jsub (jsub (jsub (jmul a.w b.w) (jmul a.x b.x)) (jmul a.y b.y)) (jmul a.z b.z)⟩

/-- three.js Quaternion.invert: the conjugate. -/
def quatConj (a : JsQuat) : JsQuat := ⟨jneg a.x, jneg a.y, jneg a.z, a.w⟩

def identityQuat : JsQuat := ⟨.val 0, .val 0, .val 0, .val 1⟩

inductive TrackKind where
  | quaternion | vector
deriving DecidableEq, Repr

/-- One keyframe track of the decoded donor asset: the dotted
    jointName.property identifier, the kind (4 values per sample for
    rotation, 3 for translation), the times and the flat values array. -/
structure Track where
  name : String
  kind : TrackKind
  times : List ℚ
  values : List JsNum
deriving DecidableEq, Repr

structure Clip where
  tracks : List Track
  duration : ℚ
deriving DecidableEq, Repr

/-- The rest-pose data the retargeter reads for one donor joint: its world
    rotation and, when the joint has a parent, the parent world rotation. -/
structure JointData where
  worldQuat : JsQuat
  parentWorldQuat : Option JsQuat
deriving DecidableEq, Repr

/-- The decoded FBX asset as the retargeter observes it: the clip found by
    name mixamo.com (none when absent), the scene joints by name, and the
    y position of the mixamorigHips object (none when that object or its
    position cannot be resolved). -/
structure MixamoAsset where
  clip : Option Clip
  joint : String → Option JointData
  hipsPosY : Option ℚ

/-- The target VRM as the retargeter observes it: normalized bone node
    names by humanoid bone name, the world y of the normalized hips node
    (none when it cannot be resolved), the world y of the scene root, and
    whether the meta version is 0. -/
structure VrmModel where
  boneNodeName : String → Option String
  hipsWorldY : Option ℚ
  rootWorldY : ℚ
  metaVersion0 : Bool

/-- The mixamoVRMRigMap table of the source. -/
def mixamoVRMRigMap : List (String × String) :=
  [("mixamorigHips", "hips"), ("mixamorigSpine", "spine"),
   ("mixamorigSpine1", "chest"), ("mixamorigSpine2", "upperChest"),
   ("mixamorigNeck", "neck"), ("mixamorigHead", "head"),
   ("mixamorigLeftShoulder", "leftShoulder"),
   ("mixamorigLeftArm", "leftUpperArm"),
   ("mixamorigLeftForeArm", "leftLowerArm"),
   ("mixamorigLeftHand", "leftHand"),
   ("mixamorigLeftHandThumb1", "leftThumbMetacarpal"),
   ("mixamorigLeftHandThumb2", "leftThumbProximal"),
   ("mixamorigLeftHandThumb3", "leftThumbDistal"),
   ("mixamorigLeftHandIndex1", "leftIndexProximal"),
   ("mixamorigLeftHandIndex2", "leftIndexIntermediate"),
   ("mixamorigLeftHandIndex3", "leftIndexDistal"),
   ("mixamorigLeftHandMiddle1", "leftMiddleProximal"),
   ("mixamorigLeftHandMiddle2", "leftMiddleIntermediate"),
   ("mixamorigLeftHandMiddle3", "leftMiddleDistal"),
   ("mixamorigLeftHandRing1", "leftRingProximal"),
   ("mixamorigLeftHandRing2", "leftRingIntermediate"),
   ("mixamorigLeftHandRing3", "leftRingDistal"),
   ("mixamorigLeftHandPinky1", "leftLittleProximal"),
   ("mixamorigLeftHandPinky2", "leftLittleIntermediate"),
   ("mixamorigLeftHandPinky3", "leftLittleDistal"),
   ("mixamorigRightShoulder", "rightShoulder"),
   ("mixamorigRightArm", "rightUpperArm"),
   ("mixamorigRightForeArm", "rightLowerArm"),
   ("mixamorigRightHand", "rightHand"),
   ("mixamorigRightHandPinky1", "rightLittleProximal"),
   ("mixamorigRightHandPinky2", "rightLittleIntermediate"),
   ("mixamorigRightHandPinky3", "rightLittleDistal"),
   ("mixamorigRightHandRing1", "rightRingProximal"),
   ("mixamorigRightHandRing2", "rightRingIntermediate"),
   ("mixamorigRightHandRing3", "rightRingDistal"),
   ("mixamorigRightHandMiddle1", "rightMiddleProximal"),
   ("mixamorigRightHandMiddle2", "rightMiddleIntermediate"),
   ("mixamorigRightHandMiddle3", "rightMiddleDistal"),
   ("mixamorigRightHandIndex1", "rightIndexProximal"),
   ("mixamorigRightHandIndex2", "rightIndexIntermediate"),
   ("mixamorigRightHandIndex3", "rightIndexDistal"),
   ("mixamorigRightHandThumb1", "rightThumbMetacarpal"),
   ("mixamorigRightHandThumb2", "rightThumbProximal"),
   ("mixamorigRightHandThumb3", "rightThumbDistal"),
   ("mixamorigLeftUpLeg", "leftUpperLeg"), ("mixamorigLeftLeg", "leftLowerLeg"),
   ("mixamorigLeftFoot", "leftFoot"), ("mixamorigLeftToeBase", "leftToes"),
   ("mixamorigRightUpLeg", "rightUpperLeg"),
   ("mixamorigRightLeg", "rightLowerLeg"),
   ("mixamorigRightFoot", "rightFoot"), ("mixamorigRightToeBase", "rightToes")]

def rigMapLookup (n : String) : Option String :=
  (mixamoVRMRigMap.find? (fun p => p.1 == n)).map Prod.snd

/-- Lines 29-33 of the source: the hips position scale.  A missing donor
    hips object or target hips node leaves an undefined operand, which the
    non-null assertions feed straight into the arithmetic, yielding NaN. -/
def hipsPositionScale (asset : MixamoAsset) (vrm : VrmModel) : JsNum :=
  jdiv (jabs (jsub (jsOfOpt vrm.hipsWorldY) (.val vrm.rootWorldY)))
    (jsOfOpt asset.hipsPosY)

/-- The in-place rotation pass over a flat quaternion values array: each
    4-sample is replaced by parentRestWorldRotation * sample *
    restRotationInverse (a trailing partial chunk, impossible for a
    well-formed quaternion track, is left as is). -/
def retargetQuatValues (parentRest restInv : JsQuat) : List JsNum → List JsNum
  | x :: y :: z :: w :: rest =>
      let q := quatMul (quatMul parentRest ⟨x, y, z, w⟩) restInv
      q.x :: q.y :: q.z :: q.w :: retargetQuatValues parentRest restInv rest
  | other => other

/-- The metaVersion 0 sign flip on a rotation values array: every even flat
    index is negated. -/
def flipQuatValues (metaV0 : Bool) (vals : List JsNum) : List JsNum :=
  vals.enum.map (fun p => if metaV0 ∧ p.1 % 2 = 0 then jneg p.2 else p.2)

/-- The translation values map: the metaVersion 0 sign flip on flat indices
    not congruent 1 mod 3, then the hips position scale. -/
def scaleVecValues (metaV0 : Bool) (scale : JsNum) (vals : List JsNum) : List JsNum :=
  vals.enum.map (fun p => jmul (if metaV0 ∧ p.1 % 3 ≠ 1 then jneg p.2 else p.2) scale)

/-- The two shared temporary quaternions of the source; an optional chain
    that fails leaves the temporary holding its previous value. -/
structure RetargetTemps where
  restRotationInverse : JsQuat
  parentRestWorldRotation : JsQuat
deriving DecidableEq, Repr

/-- Lines 47-48 of the source for one mapped track: update the shared
    temporaries from the donor joint when it resolves. -/
def stepTemps (asset : MixamoAsset) (temps : RetargetTemps) (rigName : String) :
    RetargetTemps :=
  match asset.joint rigName with
  | some j =>
      ⟨quatConj j.worldQuat,
        match j.parentWorldQuat with
        | some pq => pq
        | none => temps.parentRestWorldRotation⟩
  | none => temps

structure TrackStep where
  outTrack : Option Track
  donorTrack : Track
  temps : RetargetTemps
deriving DecidableEq, Repr

/-- The loop body of the source for one donor track: resolve the joint name
    through the rig map and the VRM; an unmapped track is dropped and left
    untouched; a mapped rotation track has its values rewritten in place and
    a sign-flipped copy emitted; a mapped translation track is emitted
    flipped and scaled without touching the donor. -/
def retargetTrackStep (asset : MixamoAsset) (vrm : VrmModel) (scale : JsNum)
    (temps : RetargetTemps) (t : Track) : TrackStep :=
  let trackSplitted := t.name.splitOn "."
  let mixamoRigName := trackSplitted.headD ""
  let vrmNodeName := (rigMapLookup mixamoRigName).bind vrm.boneNodeName
  match vrmNodeName with
  | none => ⟨none, t, temps⟩
  | some nodeName =>
      let propertyName := (trackSplitted.drop 1).headD ""
      let temps1 := stepTemps asset temps mixamoRigName
      match t.kind with
      | .quaternion =>
          let newVals := retargetQuatValues temps1.parentRestWorldRotation
            temps1.restRotationInverse t.values
          ⟨some ⟨nodeName ++ "." ++ propertyName, .quaternion, t.times,
              flipQuatValues vrm.metaVersion0 newVals⟩,
            { t with values := newVals }, temps1⟩
      | .vector =>
          ⟨some ⟨nodeName ++ "." ++ propertyName, .vector, t.times,
              scaleVecValues vrm.metaVersion0 scale t.values⟩,
            t, temps1⟩

structure RetargetResult where
  output : Clip
  donorAfter : Clip
deriving DecidableEq, Repr

/-- loadMixamoAnimation after decoding: fail fast only when the clip named
    mixamo.com is absent; otherwise compute the hips scale (NaN when a hip
    cannot be resolved) and run the track loop, collecting the emitted
    tracks and the possibly mutated donor tracks. -/
def loadMixamoModel (asset : MixamoAsset) (vrm : VrmModel) :
    Except String RetargetResult :=
  match asset.clip with
  | none => .error "Animation clip not found in FBX file"
  | some clip =>
      let scale := hipsPositionScale asset vrm
      let fin := clip.tracks.foldl
        (fun (acc : List Track × List Track × RetargetTemps) t =>
          let st := retargetTrackStep asset vrm scale acc.2.2 t
          (acc.1 ++ (match st.outTrack with | some o => [o] | none => []),
            acc.2.1 ++ [st.donorTrack], st.temps))
        ([], [], ⟨identityQuat, identityQuat⟩)
      .ok ⟨⟨fin.1, clip.duration⟩, ⟨fin.2.1, clip.duration⟩⟩

/-! ## Claim C8: missing hip joints and the hip scale factor -/

/-- A donor asset whose mixamorigHips object cannot be resolved (its clip
    still carries a mapped translation track). -/
def assetC8 : MixamoAsset :=
  { clip := some ⟨[⟨"mixamorigHips.position", TrackKind.vector, [0],
        [.val 1, .val 2, .val 3]⟩], 1⟩
    joint := fun _ => none
    hipsPosY := none }

def vrmC8 : VrmModel :=
  { boneNodeName := fun b => if b = "hips" then some "Hips" else none
    hipsWorldY := some 1
    rootWorldY := 0
    metaVersion0 := false }

set_option maxRecDepth 100000 in
/-- Claim C8 is right and the code is wrong: with the donor hips object
    unresolvable the source does not fail fast; the non-null assertion feeds
    undefined into the division, the hip scale becomes NaN, and retargeting
    silently succeeds with a translation track whose every value is NaN. -/
theorem retarget_missing_hips_nan :
    hipsPositionScale assetC8 vrmC8 = JsNum.nan ∧
      loadMixamoModel assetC8 vrmC8
        = .ok ⟨⟨[⟨"Hips.position", TrackKind.vector, [0], [.nan, .nan, .nan]⟩], 1⟩,
            ⟨[⟨"mixamorigHips.position", TrackKind.vector, [0],
                [.val 1, .val 2, .val 3]⟩], 1⟩⟩ :=
  ⟨by with_unfolding_all rfl, by with_unfolding_all rfl⟩

/-! ## Claim C9: purity of retargeting and donor mutation -/

def trackC9 : Track :=
  ⟨"mixamorigHips.quaternion", TrackKind.quaternion, [0],
    [.val 0, .val 0, .val 0, .val 1]⟩

def clipC9 : Clip := ⟨[trackC9], 2⟩

def assetC9 : MixamoAsset :=
  { clip := some clipC9
    joint := fun n => if n = "mixamorigHips" then
        some ⟨identityQuat, some ⟨.val 1, .val 0, .val 0, .val 0⟩⟩ else none
    hipsPosY := some 1 }

def vrmC9 : VrmModel :=
  { boneNodeName := fun b => if b = "hips" then some "Hips" else none
    hipsWorldY := some 1
    rootWorldY := 0
    metaVersion0 := false }

def donorAfterC9 : Clip :=
  ⟨[⟨"mixamorigHips.quaternion", TrackKind.quaternion, [0],
      [.val 1, .val 0, .val 0, .val 0]⟩], 2⟩

def outputC9 : Clip :=
  ⟨[⟨"Hips.quaternion", TrackKind.quaternion, [0],
      [.val 1, .val 0, .val 0, .val 0]⟩], 2⟩

/-- The same in-memory donor clip handed to the retargeter a second time:
    its values are the ones the first run wrote back. -/
def assetC9second : MixamoAsset :=
  { clip := some donorAfterC9
    joint := assetC9.joint
    hipsPosY := assetC9.hipsPosY }

def donorAfterC9second : Clip :=
  ⟨[⟨"mixamorigHips.quaternion", TrackKind.quaternion, [0],
      [.val 0, .val 0, .val 0, .val (-1)]⟩], 2⟩

def outputC9second : Clip :=
  ⟨[⟨"Hips.quaternion", TrackKind.quaternion, [0],
      [.val 0, .val 0, .val 0, .val (-1)]⟩], 2⟩

set_option maxRecDepth 100000 in
/-- Claim C9 counterexample: the rotation pass mutates the donor clip (the
    donor values after the run differ from the originals), and retargeting
    the same in-memory clip a second time with the very same rest poses and
    binding yields a different output track. -/
theorem retarget_donor_mutation_counterexample :
    loadMixamoModel assetC9 vrmC9 = .ok ⟨outputC9, donorAfterC9⟩ ∧
      donorAfterC9 ≠ clipC9 ∧
      loadMixamoModel assetC9second vrmC9
        = .ok ⟨outputC9second, donorAfterC9second⟩ ∧
      outputC9second ≠ outputC9 :=
  ⟨by with_unfolding_all rfl,
    of_decide_eq_true (by with_unfolding_all rfl),
    by with_unfolding_all rfl,
    of_decide_eq_true (by with_unfolding_all rfl)⟩

/-- The values the rotation pass writes back into a mapped donor rotation
    track. -/
def mutatedValues (asset : MixamoAsset) (temps : RetargetTemps) (t : Track) :
    List JsNum :=
  retargetQuatValues
    (stepTemps asset temps ((t.name.splitOn ".").headD "")).parentRestWorldRotation
    (stepTemps asset temps ((t.name.splitOn ".").headD "")).restRotationInverse
    t.values

/-- Claim C9 (amended): the retargeting pass is deterministic in the donor
    clip values, the binding and the rest poses, and loadMixamoAnimation
    re-decodes the donor asset on each call, so two calls over the same
    source data give bit-for-bit identical outputs; but the pass is not pure
    on the in-memory clip: a mapped rotation track has the retargeted
    quaternions written back into the donor values (the emitted track is
    the sign-flip of those mutated values), while translation tracks and
    unmapped tracks are never modified. -/
theorem retarget_step_mutation (asset : MixamoAsset) (vrm : VrmModel)
    (scale : JsNum) (temps : RetargetTemps) (t : Track) :
    (t.kind = TrackKind.vector →
        (retargetTrackStep asset vrm scale temps t).donorTrack = t) ∧
      (((rigMapLookup ((t.name.splitOn ".").headD "")).bind vrm.boneNodeName)
          = none →
        (retargetTrackStep asset vrm scale temps t).donorTrack = t ∧
          (retargetTrackStep asset vrm scale temps t).outTrack = none) ∧
      (∀ nodeName : String,
        ((rigMapLookup ((t.name.splitOn ".").headD "")).bind vrm.boneNodeName)
            = some nodeName →
        t.kind = TrackKind.quaternion →
        (retargetTrackStep asset vrm scale temps t).donorTrack
            = { t with values := mutatedValues asset temps t } ∧
          (retargetTrackStep asset vrm scale temps t).outTrack
            = some ⟨nodeName ++ "." ++ (((t.name.splitOn ".").drop 1).headD ""),
                TrackKind.quaternion, t.times,
                flipQuatValues vrm.metaVersion0 (mutatedValues asset temps t)⟩) := by
  refine ⟨?_, ?_, ?_⟩
  · intro hkind
    unfold retargetTrackStep
    dsimp only
    cases hvn : (rigMapLookup ((t.name.splitOn ".").headD "")).bind vrm.boneNodeName with
    | none => rfl
    | some nodeName =>
        dsimp only
        rw [hkind]
  · intro hvn
    unfold retargetTrackStep
    dsimp only
    rw [hvn]
    exact ⟨rfl, rfl⟩
  · intro nodeName hvn hkind
    unfold retargetTrackStep
    dsimp only
    rw [hvn]
    dsimp only
    rw [hkind]
    exact ⟨rfl, rfl⟩

set_option maxRecDepth 100000 in
/-- Witness for the amended claim C9 at concrete tracks: a mapped
    translation track is not modified, and the concrete rotation track has
    exactly the retargeted values written back into the donor. -/
theorem retarget_step_mutation_witness :
    (retargetTrackStep assetC8 vrmC8 JsNum.nan ⟨identityQuat, identityQuat⟩
        ⟨"mixamorigHips.position", TrackKind.vector, [0],
          [.val 1, .val 2, .val 3]⟩).donorTrack
      = ⟨"mixamorigHips.position", TrackKind.vector, [0],
          [.val 1, .val 2, .val 3]⟩ ∧
      (retargetTrackStep assetC9 vrmC9 (.val 1) ⟨identityQuat, identityQuat⟩
          trackC9).donorTrack
        = { trackC9 with
            values := mutatedValues assetC9 ⟨identityQuat, identityQuat⟩ trackC9 } :=
  ⟨(retarget_step_mutation assetC8 vrmC8 JsNum.nan ⟨identityQuat, identityQuat⟩
      ⟨"mixamorigHips.position", TrackKind.vector, [0],
        [.val 1, .val 2, .val 3]⟩).1 rfl,
    ((retarget_step_mutation assetC9 vrmC9 (.val 1) ⟨identityQuat, identityQuat⟩
        trackC9).2.2 "Hips" (by with_unfolding_all rfl) rfl).1⟩

/-! ## Claim C10: per-tick expression weight writes (animate loop) -/

def allVisemes : List Viseme := [.aa, .ee, .ih, .oh, .ou]

/-- One animation-frame tick's expression setValue calls for the mouth, in
    order: the five visemes are reset to 0 first, then the held viseme is
    written with the smoothed intensity, but only when it is non-neutral and
    the intensity exceeds 0.1. -/
def visemeSetEvents (held : Viseme) (intensity : ℚ) : List (Viseme × ℚ) :=
  (allVisemes.map (fun v => (v, (0 : ℚ))))
    ++ (if held ≠ Viseme.neutral ∧ 1 / 10 < intensity then [(held, intensity)]
        else [])

/-- Apply setValue events in order to the expression weight map. -/
def applyEvents (w : Viseme → ℚ) (l : List (Viseme × ℚ)) : Viseme → ℚ :=
  l.foldl (fun w p => fun u => if u = p.1 then p.2 else w u) w

/-- Claim C10 counterexample: with held viseme aa and reported intensity
    1/20 (below the 0.1 gate), the tick never writes the held viseme, so
    its weight stays 0 instead of being set to the reported intensity. -/
theorem expression_low_intensity_counterexample :
    (Viseme.aa, (1 / 20 : ℚ)) ∉ visemeSetEvents Viseme.aa (1 / 20) ∧
      applyEvents (fun _ => 0) (visemeSetEvents Viseme.aa (1 / 20)) Viseme.aa = 0 ∧
      ¬((0 : ℚ) = 1 / 20) :=
  ⟨of_decide_eq_true (by with_unfolding_all rfl),
    by with_unfolding_all rfl,
    of_decide_eq_true (by with_unfolding_all rfl)⟩

theorem applyEvents_append (w : Viseme → ℚ) (l1 l2 : List (Viseme × ℚ)) :
    applyEvents w (l1 ++ l2) = applyEvents (applyEvents w l1) l2 := by
  unfold applyEvents
  rw [List.foldl_append]

/-- Claim C10 (amended): every tick first sets the five viseme weights to 0
    (the zero writes are literally the first five events), and then the held
    viseme's weight is set to the smoother's reported intensity only when
    the held viseme is non-neutral and the intensity exceeds 0.1; otherwise
    every viseme weight, the held one included, is left at 0.  The neutral
    slot is never written. -/
theorem expression_weights_amended (held : Viseme) (intensity : ℚ)
    (w : Viseme → ℚ) :
    ((visemeSetEvents held intensity).take 5
        = allVisemes.map (fun v => (v, (0 : ℚ)))) ∧
      (∀ v ∈ allVisemes,
        applyEvents w (visemeSetEvents held intensity) v
          = if v = held ∧ held ≠ Viseme.neutral ∧ 1 / 10 < intensity
            then intensity else 0) ∧
      (applyEvents w (visemeSetEvents held intensity) Viseme.neutral
        = w Viseme.neutral) := by
  have hzero : ∀ u, applyEvents w (allVisemes.map (fun v => (v, (0 : ℚ)))) u
      = if u ∈ allVisemes then 0 else w u := by
    intro u
    cases u <;> simp [applyEvents, allVisemes]
  refine ⟨?_, ?_, ?_⟩
  · unfold visemeSetEvents
    split_ifs <;> rfl
  · intro v hv
    unfold visemeSetEvents
    rw [applyEvents_append]
    by_cases hcond : held ≠ Viseme.neutral ∧ 1 / 10 < intensity
    · rw [if_pos hcond]
      show (if v = held then intensity else applyEvents w _ v)
          = if v = held ∧ held ≠ Viseme.neutral ∧ 1 / 10 < intensity
            then intensity else 0
      rw [hzero v, if_pos hv]
      by_cases hveq : v = held
      · rw [if_pos hveq, if_pos ⟨hveq, hcond⟩]
      · rw [if_neg hveq, if_neg (fun hc => hveq hc.1)]
    · rw [if_neg hcond]
      show applyEvents w _ v
          = if v = held ∧ held ≠ Viseme.neutral ∧ 1 / 10 < intensity
            then intensity else 0
      rw [hzero v, if_pos hv, if_neg (fun hc => hcond hc.2)]
  · unfold visemeSetEvents
    rw [applyEvents_append]
    by_cases hcond : held ≠ Viseme.neutral ∧ 1 / 10 < intensity
    · rw [if_pos hcond]
      show (if Viseme.neutral = held then intensity else applyEvents w _ Viseme.neutral)
          = w Viseme.neutral
      rw [if_neg (fun he => hcond.1 he.symm), hzero Viseme.neutral,
        if_neg (by simp [allVisemes])]
    · rw [if_neg hcond]
      show applyEvents w _ Viseme.neutral = w Viseme.neutral
      rw [hzero Viseme.neutral, if_neg (by simp [allVisemes])]

/-- Witness for the amended claim C10 at concrete inputs: with held viseme
    aa at intensity 1/2 the aa weight is set to 1/2 and the ee weight is
    reset to 0. -/
theorem expression_weights_amended_witness :
    applyEvents (fun _ => 1) (visemeSetEvents Viseme.aa (1 / 2)) Viseme.aa
        = 1 / 2 ∧
      applyEvents (fun _ => 1) (visemeSetEvents Viseme.aa (1 / 2)) Viseme.ee = 0 := by
  constructor
  · have h := ((expression_weights_amended Viseme.aa (1 / 2) (fun _ => 1)).2.1
      Viseme.aa (by decide))
    rw [h, if_pos ⟨rfl, fun he => Viseme.noConfusion he, by norm_num⟩]
  · have h := ((expression_weights_amended Viseme.aa (1 / 2) (fun _ => 1)).2.1
      Viseme.ee (by decide))
    rw [h, if_neg (fun hc => Viseme.noConfusion hc.1)]

end MochiLive
